import Mathlib

/-!
A shallow embedding of `src/api/main.py` (an HTTP audio-normalization
service).  Pure string manipulation is translated to Lean functions over
`List Char`; each subprocess invocation is modelled by an oracle value of
type `ProcResult` supplied per job; filesystem and process side effects
are recorded in an explicit event trace (`Ev`).  Python exceptions are
modelled with `Except`.
-/

/- ### Python string primitives, modelled over `List Char` -/

/-- Python `str.lower` (ASCII-relevant part, via `Char.toLower`). -/
def toLowerStr (s : String) : String := String.mk (s.data.map Char.toLower)

/-- Python `str.endswith(suffix)`. -/
def endsWithList (suffix cs : List Char) : Bool := suffix.isSuffixOf cs

/-- The `.mp3` filename check from lines 109 and 140:
`file.filename.lower().endswith('.mp3')`. -/
def endsWithMp3 (name : String) : Bool := endsWithList ".mp3".data (toLowerStr name).data

/-- Python `pat in s` (substring containment) for a pattern `pat`. -/
def containsPat (pat : List Char) : List Char → Bool
  | [] => pat.isEmpty
  | c :: rest => pat.isPrefixOf (c :: rest) || containsPat pat rest

/-- Helper for `splitOnChar`: accumulates the current piece (reversed). -/
def splitOnCharAux (sep : Char) : List Char → List Char → List (List Char)
  | [], acc => [acc.reverse]
  | c :: rest, acc =>
    if c == sep then acc.reverse :: splitOnCharAux sep rest []
    else splitOnCharAux sep rest (c :: acc)

/-- Python `s.split(sep)` for a one-character separator (unlimited split). -/
def splitOnChar (sep : Char) (s : String) : List String :=
  (splitOnCharAux sep s.data []).map String.mk

/-- Python `str.splitlines` for LF-separated text: split on newline, and a
trailing newline produces no final empty line. -/
def splitlines (s : String) : List String :=
  let ps := splitOnChar '\n' s
  if ps.getLast? = some "" then ps.dropLast else ps

/-- Whitespace test used by Python `str.strip`. -/
def isPySpace (c : Char) : Bool := c == ' ' || c == '\t' || c == '\n' || c == '\r'

/-- Python `str.strip()`. -/
def stripList (cs : List Char) : List Char :=
  ((cs.dropWhile isPySpace).reverse.dropWhile isPySpace).reverse

/-- Worker for `replaceAll`.  The numeric argument counts characters still
to be skipped after a replacement (the matched occurrence's tail). -/
def replaceGo (pat repl : List Char) : Nat → List Char → List Char
  | _, [] => []
  | skip + 1, _ :: rest => replaceGo pat repl skip rest
  | 0, c :: rest =>
    if pat.isPrefixOf (c :: rest) then repl ++ replaceGo pat repl (pat.length - 1) rest
    else c :: replaceGo pat repl 0 rest

/-- Python `s.replace(pat, repl)` for a nonempty pattern: replaces every
non-overlapping occurrence, left to right. -/
def replaceAll (pat repl cs : List Char) : List Char :=
  if pat.isEmpty then cs else replaceGo pat repl 0 cs

/-- Python `os.path.basename`: everything after the last `/`. -/
def basename (p : String) : String := ((splitOnChar '/' p).getLast?).getD ""

/-- Python `os.path.join` for one component: an absolute second argument
replaces the first; otherwise the parts are joined with a single `/`. -/
def osPathJoin (a b : String) : String :=
  if b.data.head? = some '/' then b
  else if a = "" then b
  else if a.data.getLast? = some '/' then a ++ b
  else a ++ "/" ++ b

/-- Python `os.path.splitext` on a basename: splits at the last dot, except
that leading dots of the name never begin an extension. -/
def splitext (s : String) : String × String :=
  let cs := s.data
  let lead := (cs.takeWhile (· = '.')).length
  let rest := cs.drop lead
  if rest.contains '.' then
    let extLen := (rest.reverse.takeWhile (· ≠ '.')).length + 1
    (String.mk (cs.take (cs.length - extLen)), String.mk (cs.drop (cs.length - extLen)))
  else (s, "")

/-- Resolution of `.` and `..` components of a path, for reasoning about
where a staged path actually points (the source itself never sanitizes). -/
def resolvePath (p : String) : List String :=
  (splitOnChar '/' p).foldl
    (fun acc c =>
      if c = "" ∨ c = "." then acc
      else if c = ".." then acc.dropLast
      else acc ++ [c]) []

/- ### Data model -/

/-- Outcome of one subprocess invocation, as observed by the service:
normal completion with a return code and captured stderr text, expiry of
the `timeout` bound (`subprocess.TimeoutExpired`), or any other raised
exception with its `str()`. -/
inductive ProcResult where
  | completed (returncode : Int) (stderr : String)
  | timedOut
  | raised (msg : String)
deriving DecidableEq, Repr

/-- One uploaded file: multipart filename plus content bytes. -/
structure Upload where
  filename : String
  content : String
deriving DecidableEq, Repr

/-- Model of `fastapi.HTTPException` (a Python `Exception` subclass). -/
structure HTTPExc where
  status_code : Nat
  detail : String
deriving DecidableEq, Repr

/-- Python `str()` of an `HTTPException`, per starlette:
`"<status_code>: <detail>"`. -/
def strHTTPExc (e : HTTPExc) : String :=
  toString e.status_code ++ ": " ++ e.detail

/-- Result dict of `analyze_track` (lines 49-71). -/
structure AnalyzeOutcome where
  filename : String
  lufs : Option String
  tp : Option String
  status : String
  error : Option String
deriving DecidableEq, Repr

/-- Result dict of `normalize_track` (lines 83-91). -/
structure NormOutcome where
  status : String
  message : String
deriving DecidableEq, Repr

/-- Filesystem / process events emitted while a handler runs. -/
inductive Ev where
  | mkdir (dir : String)
  | write (path : String) (content : String)
  | spawn (cmd : List String) (timeoutSecs : Nat)
  | rmtree (dir : String)
deriving DecidableEq, Repr

/- ### External Processor Adapter (lines 27-91) -/

def TARGET_LUFS : Int := -9
def TARGET_TP : Int := 0
def ANALYZE_TIMEOUT : Nat := 60
def NORMALIZE_TIMEOUT : Nat := 300
def HEALTH_TIMEOUT : Nat := 5

/-- The `-af` filter argument of the analysis command (line 35). -/
def loudnormSummaryFilter : String :=
  "loudnorm=I=" ++ toString TARGET_LUFS ++ ":TP=" ++ toString TARGET_TP ++
    ":LRA=11:print_format=summary"

/-- The analysis command line (lines 33-37). -/
def analyzeCmd (file_path : String) : List String :=
  ["ffmpeg", "-threads", "4", "-i", file_path, "-af", loudnormSummaryFilter,
   "-f", "null", "-"]

/-- The `-af` filter argument of the normalization command (line 78). -/
def loudnormFilter : String :=
  "loudnorm=I=" ++ toString TARGET_LUFS ++ ":TP=" ++ toString TARGET_TP ++ ":LRA=11"

/-- The normalization command line (lines 76-81). -/
def normalizeCmd (input_path output_path : String) : List String :=
  ["ffmpeg", "-y", "-threads", "4", "-i", input_path, "-af", loudnormFilter,
   "-ar", "44100", "-c:a", "libmp3lame", "-b:a", "320k", output_path]

/-- `line.split(":")[1].strip().replace(unit, "")` (lines 45 and 47);
`none` when index 1 does not exist (Python raises `IndexError`). -/
def extractMetric (line unit : String) : Option String :=
  match (splitOnChar ':' line).get? 1 with
  | some s => some (String.mk (replaceAll unit.data [] (stripList s.data)))
  | none => none

/-- The scan loop of lines 43-47: updates `lufs` on a line containing
`"Input Integrated"` and `tp` on a line containing `"Input True Peak"`;
a malformed matching line (no colon) raises `IndexError`, which escapes
to the handler in lines 64-71. -/
def scanLoop : List String → Option String → Option String →
    Except String (Option String × Option String)
  | [], lufs, tp => Except.ok (lufs, tp)
  | line :: rest, lufs, tp =>
    let step1 : Except String (Option String) :=
      if containsPat "Input Integrated".data line.data then
        match extractMetric line " LUFS" with
        | some v => Except.ok (some v)
        | none => Except.error "list index out of range"
      else Except.ok lufs
    match step1 with
    | Except.error e => Except.error e
    | Except.ok lufs1 =>
      let step2 : Except String (Option String) :=
        if containsPat "Input True Peak".data line.data then
          match extractMetric line " dBTP" with
          | some v => Except.ok (some v)
          | none => Except.error "list index out of range"
        else Except.ok tp
      match step2 with
      | Except.error e => Except.error e
      | Except.ok tp1 => scanLoop rest lufs1 tp1

/-- `analyze_track` (lines 30-71) as a function of the subprocess outcome.
The return code is not inspected; only the stderr text is scanned. -/
def analyze_track (file_path : String) (pr : ProcResult) : AnalyzeOutcome :=
  match pr with
  | ProcResult.completed _ stderr =>
    match scanLoop (splitlines stderr) none none with
    | Except.ok (lufs, tp) => ⟨basename file_path, lufs, tp, "success", none⟩
    | Except.error msg => ⟨basename file_path, none, none, "error", some msg⟩
  | ProcResult.timedOut =>
      ⟨basename file_path, none, none, "timeout", some "Analysis timed out"⟩
  | ProcResult.raised msg => ⟨basename file_path, none, none, "error", some msg⟩

/-- `normalize_track` (lines 73-91) as a function of the subprocess
outcome.  Note lines 88-89: `subprocess.TimeoutExpired` is mapped to
status `"error"`, not `"timeout"`. -/
def normalize_track (input_path output_path : String) (pr : ProcResult) : NormOutcome :=
  match pr with
  | ProcResult.completed rc stderr =>
    if rc == 0 then ⟨"success", "Normalized successfully"⟩
    else ⟨"error", stderr⟩
  | ProcResult.timedOut => ⟨"error", "Normalization timed out"⟩
  | ProcResult.raised msg => ⟨"error", msg⟩

/- ### Workspace Manager: staging uploads (lines 108-116 / 139-147) -/

/-- The staging loop shared by both handlers: each filename is validated
(`.mp3`, case-insensitive) and, when valid, the content is written to the
verbatim join of the request's input directory and the uploaded filename.
The first invalid filename raises `HTTPException(400, ...)`; writes made
before the failure remain in the event trace. -/
def stageFiles (dir : String) : List Upload → Except HTTPExc (List String) × List Ev
  | [] => (Except.ok [], [])
  | f :: rest =>
    if endsWithMp3 f.filename then
      let p := osPathJoin dir f.filename
      match stageFiles dir rest with
      | (Except.ok ps, evs) => (Except.ok (p :: ps), Ev.write p f.content :: evs)
      | (Except.error e, evs) => (Except.error e, Ev.write p f.content :: evs)
    else (Except.error ⟨400, "File " ++ f.filename ++ " is not an MP3"⟩, [])

/- ### Job Scheduler (lines 119-120 / 157-158) -/

/-- `list(executor.map(worker, paths))`: the executor returns results in
submission order regardless of completion order, so the batch is an
order-preserving map where job `i` consumes the `i`-th subprocess
outcome from the oracle. -/
def mapWithOracle (f : String → ProcResult → α) :
    List String → (Nat → ProcResult) → List α
  | [], _ => []
  | p :: ps, proc => f p (proc 0) :: mapWithOracle f ps (fun i => proc (i + 1))

/- ### Result Aggregator (lines 160-167) -/

/-- The aggregation loop: `for (result, output_path), input_file in
zip(results, input_files)`, appending `"<basename(input)>: <message>"` to
`errors` when the outcome's status is `"error"` and the output path to
`successful_files` otherwise.  Like `zip`, it truncates to the shorter
list. -/
def aggregate : List (NormOutcome × String) → List String → List String × List String
  | [], _ => ([], [])
  | _ :: _, [] => ([], [])
  | (r, op) :: rs, inf :: infs =>
    let rest := aggregate rs infs
    if r.status = "error" then
      ((basename inf ++ ": " ++ r.message) :: rest.1, rest.2)
    else (rest.1, op :: rest.2)

/-- Python `"; ".join(errors)` (line 170). -/
def joinSemicolon : List String → String
  | [] => ""
  | [x] => x
  | x :: y :: rest => x ++ "; " ++ joinSemicolon (y :: rest)

/- ### Request Handlers -/

/-- Response body of `/analyze` (line 122). -/
structure AnalyzeResponse where
  results : List AnalyzeOutcome
deriving DecidableEq, Repr

/-- `FileResponse` returned by `/normalize` (lines 179-185): the archive
path, its entries (source path and in-archive name from line 176), the
download filename, and the deferred `background` cleanup list. -/
structure NormFileResponse where
  path : String
  media_type : String
  download_name : String
  entries : List (String × String)
  background : List String
deriving DecidableEq, Repr

/-- Response body of `/health` (lines 204-207). -/
structure HealthResponse where
  status : String
  ffmpeg_available : Bool
deriving DecidableEq, Repr

/-- `POST /analyze` (lines 97-122).  `temp_dir` is the directory allocated
by `tempfile.TemporaryDirectory()`; the oracle `proc` gives the outcome of
the `i`-th spawned analysis subprocess.  The `with` block removes the
directory on both the success path and the raising path. -/
def analyze_files (temp_dir : String) (files : List Upload)
    (proc : Nat → ProcResult) : Except HTTPExc AnalyzeResponse × List Ev :=
  if files = [] then (Except.error ⟨400, "No files uploaded"⟩, [])
  else
    match stageFiles temp_dir files with
    | (Except.error e, evs) =>
        (Except.error e, Ev.mkdir temp_dir :: (evs ++ [Ev.rmtree temp_dir]))
    | (Except.ok temp_files, evs) =>
        let spawns := temp_files.map fun p => Ev.spawn (analyzeCmd p) ANALYZE_TIMEOUT
        let results := mapWithOracle analyze_track temp_files proc
        (Except.ok ⟨results⟩, Ev.mkdir temp_dir :: (evs ++ spawns ++ [Ev.rmtree temp_dir]))

/-- Output path chosen by `normalize_file` (lines 150-155):
`<stem>_normalized<ext>` of the input's basename, inside the output
directory. -/
def outputPathFor (output_dir input_path : String) : String :=
  osPathJoin output_dir
    ((splitext (basename input_path)).1 ++ "_normalized" ++ (splitext (basename input_path)).2)

/-- `normalize_file` (lines 150-155): returns the pair
`(normalize_track(input, output), output_path)`. -/
def normalize_file (output_dir input_path : String) (pr : ProcResult) :
    NormOutcome × String :=
  (normalize_track input_path (outputPathFor output_dir input_path) pr,
   outputPathFor output_dir input_path)

/-- The normalization batch (lines 157-158), in submission order. -/
def runNormalizeJobs (output_dir : String) (input_files : List String)
    (proc : Nat → ProcResult) : List (NormOutcome × String) :=
  mapWithOracle (normalize_file output_dir) input_files proc

/-- `POST /normalize` (lines 124-191).  The whole `try` body is wrapped by
`except Exception` (lines 187-191), which removes both temporary
directories and re-raises `HTTPException(500, str(e))` — so the 400
validation error and the all-failed 500 raised inside the `try` both
surface with status 500 and a `str()`-wrapped detail.  On the success
path the response carries the deferred `background` cleanup of both
directories (lines 183-184). -/
def normalize_files (session_id temp_input_dir temp_output_dir : String)
    (files : List Upload) (proc : Nat → ProcResult) :
    Except HTTPExc NormFileResponse × List Ev :=
  if files = [] then (Except.error ⟨400, "No files uploaded"⟩, [])
  else
    let created : List Ev := [Ev.mkdir temp_input_dir, Ev.mkdir temp_output_dir]
    let cleanup : List Ev := [Ev.rmtree temp_input_dir, Ev.rmtree temp_output_dir]
    match stageFiles temp_input_dir files with
    | (Except.error e, evs) =>
        (Except.error ⟨500, strHTTPExc e⟩, created ++ evs ++ cleanup)
    | (Except.ok input_files, evs) =>
        let spawns := input_files.map fun p =>
          Ev.spawn (normalizeCmd p (outputPathFor temp_output_dir p)) NORMALIZE_TIMEOUT
        let results := runNormalizeJobs temp_output_dir input_files proc
        let agg := aggregate results input_files
        if agg.2 = [] then
          (Except.error ⟨500, strHTTPExc ⟨500,
              "All files failed to normalize: " ++ joinSemicolon agg.1⟩⟩,
           created ++ evs ++ spawns ++ cleanup)
        else
          (Except.ok
            { path := osPathJoin temp_output_dir ("normalized_audio_" ++ session_id ++ ".zip")
              media_type := "application/zip"
              download_name := "normalized_audio_" ++ toString agg.2.length ++ "_files.zip"
              entries := agg.2.map fun p => (p, basename p)
              background := [temp_input_dir, temp_output_dir] },
           created ++ evs ++ spawns)

/-- `GET /health` (lines 193-207): `ffmpeg -version` with a 5-second
timeout; the bare `except:` maps any failure to `ffmpeg_available =
false`. -/
def health_check (pr : ProcResult) : HealthResponse :=
  match pr with
  | ProcResult.completed rc _ => ⟨"healthy", rc == 0⟩
  | ProcResult.timedOut => ⟨"healthy", false⟩
  | ProcResult.raised _ => ⟨"healthy", false⟩

/- ### Derived closed forms used in theorem statements -/

/-- The failure-summary entries the aggregation loop produces on a staged
batch: one `"<basename>: <message>"` entry per job whose outcome has
status `"error"`, in submission order. -/
def failureSummaries (output_dir : String) :
    List String → (Nat → ProcResult) → List String
  | [], _ => []
  | p :: ps, proc =>
    let r := (normalize_file output_dir p (proc 0)).1
    let rest := failureSummaries output_dir ps (fun i => proc (i + 1))
    if r.status = "error" then
      (basename p ++ ": " ++ r.message) :: rest
    else rest

/-- The successful output paths the aggregation loop collects on a staged
batch, in submission order. -/
def successOutputs (output_dir : String) :
    List String → (Nat → ProcResult) → List String
  | [], _ => []
  | p :: ps, proc =>
    let rop := normalize_file output_dir p (proc 0)
    let rest := successOutputs output_dir ps (fun i => proc (i + 1))
    if rop.1.status = "error" then rest else rop.2 :: rest

/-- Test for a spawn event. -/
def isSpawn : Ev → Bool
  | Ev.spawn _ _ => true
  | _ => false

/-- Whether a trace contains any external-process invocation. -/
def hasSpawnEv (evs : List Ev) : Bool := evs.any isSpawn

/-- The content a path holds after a sequence of events (the last write
wins, as on a real filesystem). -/
def finalContent (evs : List Ev) (p : String) : Option String :=
  evs.foldl
    (fun acc e =>
      match e with
      | Ev.write q c => if q = p then some c else acc
      | _ => acc) none

/- ### Shared lemmas -/

/-- When every filename is valid, staging returns the verbatim joined
paths in order and writes each upload's content to its joined path. -/
theorem stageFiles_ok (dir : String) (files : List Upload)
    (h : ∀ f ∈ files, endsWithMp3 f.filename = true) :
    stageFiles dir files =
      (Except.ok (files.map fun f => osPathJoin dir f.filename),
       files.map fun f => Ev.write (osPathJoin dir f.filename) f.content) := by
  induction files with
  | nil => rfl
  | cons f fs ih =>
    have hf : endsWithMp3 f.filename = true := h f (List.mem_cons_self f fs)
    have hfs : ∀ g ∈ fs, endsWithMp3 g.filename = true :=
      fun g hg => h g (List.mem_cons_of_mem f hg)
    simp [stageFiles, hf, ih hfs]

/-- When some filename is invalid, staging fails with a 400 naming the
first invalid file, and the trace holds only write events. -/
theorem stageFiles_err (dir : String) (files : List Upload) (f : Upload)
    (hf : files.find? (fun u => !endsWithMp3 u.filename) = some f) :
    ∃ evs, stageFiles dir files =
        (Except.error ⟨400, "File " ++ f.filename ++ " is not an MP3"⟩, evs) ∧
      ∀ e ∈ evs, ∃ p c, e = Ev.write p c := by
  induction files with
  | nil => simp [List.find?] at hf
  | cons u us ih =>
    by_cases hu : endsWithMp3 u.filename
    · have : us.find? (fun u => !endsWithMp3 u.filename) = some f := by
        simpa [List.find?, hu] using hf
      obtain ⟨evs, heq, hw⟩ := ih this
      refine ⟨Ev.write (osPathJoin dir u.filename) u.content :: evs, ?_, ?_⟩
      · simp [stageFiles, hu, heq]
      · intro e he
        rcases List.mem_cons.mp he with h | h
        · exact ⟨_, _, h⟩
        · exact hw e h
    · have huf : u = f := by
        have := hf
        simp [List.find?, hu] at this
        exact this
      subst huf
      refine ⟨[], ?_, by simp⟩
      simp [stageFiles, hu]

/-- The batch has one result per job. -/
theorem mapWithOracle_length (f : String → ProcResult → α) (ps : List String)
    (proc : Nat → ProcResult) : (mapWithOracle f ps proc).length = ps.length := by
  induction ps generalizing proc with
  | nil => rfl
  | cons p ps ih => simp [mapWithOracle, ih]

/-- The `i`-th result of the batch is the worker applied to the `i`-th
input path and the `i`-th subprocess outcome. -/
theorem mapWithOracle_getD (f : String → ProcResult → α) (ps : List String)
    (proc : Nat → ProcResult) (i : Nat) (d : α) (h : i < ps.length) :
    (mapWithOracle f ps proc).getD i d = f (ps.getD i "") (proc i) := by
  induction ps generalizing proc i with
  | nil => simp at h
  | cons p ps ih =>
    cases i with
    | zero => simp [mapWithOracle]
    | succ i =>
      have h2 : i < ps.length := by simpa using h
      have hstep : mapWithOracle f (p :: ps) proc =
          f p (proc 0) :: mapWithOracle f ps (fun j => proc (j + 1)) := rfl
      rw [hstep, List.getD_cons_succ, List.getD_cons_succ,
        ih (fun j => proc (j + 1)) i h2]

/-- Indexing through `List.map` with defaults. -/
theorem getD_map (g : α → β) (l : List α) (i : Nat) (d : β) (d0 : α)
    (h : i < l.length) : (l.map g).getD i d = g (l.getD i d0) := by
  induction l generalizing i with
  | nil => simp at h
  | cons x xs ih =>
    cases i with
    | zero => simp
    | succ i => simpa using ih i (by simpa using h)

/-- `normalize_track` produces only the statuses `"success"` and
`"error"`; in particular a timed-out job surfaces as `"error"`. -/
theorem normalize_track_status (ip op : String) (pr : ProcResult) :
    (normalize_track ip op pr).status = "success" ∨
      (normalize_track ip op pr).status = "error" := by
  cases pr with
  | completed rc stderr =>
    by_cases h : rc == 0 <;> simp [normalize_track, h]
  | timedOut => right; rfl
  | raised msg => right; rfl

/-- The aggregation loop over the scheduler's results computes exactly
the failure summaries and the successful output paths. -/
theorem aggregate_runJobs (output_dir : String) (ps : List String)
    (proc : Nat → ProcResult) :
    aggregate (runNormalizeJobs output_dir ps proc) ps =
      (failureSummaries output_dir ps proc, successOutputs output_dir ps proc) := by
  induction ps generalizing proc with
  | nil => rfl
  | cons p ps ih =>
    have ihx : aggregate (mapWithOracle (normalize_file output_dir) ps
          fun i => proc (i + 1)) ps =
        (failureSummaries output_dir ps fun i => proc (i + 1),
         successOutputs output_dir ps fun i => proc (i + 1)) :=
      ih (fun i => proc (i + 1))
    by_cases hs : (normalize_track p (outputPathFor output_dir p) (proc 0)).status = "error" <;>
      simp [runNormalizeJobs, mapWithOracle, aggregate, failureSummaries,
        successOutputs, normalize_file, hs, ihx]

/-- Full behaviour of `/analyze` on a nonempty, validly-named batch: HTTP
200 with the ordered batch results, and a trace of one write and one
spawn per file inside the request's temporary directory, which is removed
at the end. -/
theorem analyze_files_valid (din : String) (files : List Upload)
    (proc : Nat → ProcResult) (hne : files ≠ [])
    (hv : ∀ f ∈ files, endsWithMp3 f.filename = true) :
    analyze_files din files proc =
      (Except.ok ⟨mapWithOracle analyze_track
          (files.map fun f => osPathJoin din f.filename) proc⟩,
       Ev.mkdir din ::
         ((files.map fun f => Ev.write (osPathJoin din f.filename) f.content) ++
          ((files.map fun f => osPathJoin din f.filename).map
            fun p => Ev.spawn (analyzeCmd p) ANALYZE_TIMEOUT) ++
          [Ev.rmtree din])) := by
  unfold analyze_files
  rw [if_neg hne, stageFiles_ok din files hv]

/-- Full behaviour of `/normalize` on a nonempty, validly-named batch:
if no job succeeded, HTTP 500 whose detail is the `str()` of the inner
all-failed 500 carrying the joined failure summary, with both directories
removed in the trace; otherwise a zip `FileResponse` whose entries are
exactly the successful outputs, each stored under its basename, with the
deferred cleanup of both directories attached. -/
theorem normalize_files_valid (sid din dout : String) (files : List Upload)
    (proc : Nat → ProcResult) (hne : files ≠ [])
    (hv : ∀ f ∈ files, endsWithMp3 f.filename = true) :
    normalize_files sid din dout files proc =
      (let ins := files.map fun f => osPathJoin din f.filename
       let writes := files.map fun f => Ev.write (osPathJoin din f.filename) f.content
       let spawns := ins.map fun p =>
         Ev.spawn (normalizeCmd p (outputPathFor dout p)) NORMALIZE_TIMEOUT
       if successOutputs dout ins proc = [] then
         (Except.error ⟨500, strHTTPExc ⟨500,
             "All files failed to normalize: " ++
               joinSemicolon (failureSummaries dout ins proc)⟩⟩,
          [Ev.mkdir din, Ev.mkdir dout] ++ writes ++ spawns ++
            [Ev.rmtree din, Ev.rmtree dout])
       else
         (Except.ok
           { path := osPathJoin dout ("normalized_audio_" ++ sid ++ ".zip")
             media_type := "application/zip"
             download_name :=
               "normalized_audio_" ++ toString (successOutputs dout ins proc).length ++
                 "_files.zip"
             entries := (successOutputs dout ins proc).map fun p => (p, basename p)
             background := [din, dout] },
          [Ev.mkdir din, Ev.mkdir dout] ++ writes ++ spawns)) := by
  unfold normalize_files
  rw [if_neg hne, stageFiles_ok din files hv]
  simp only [aggregate_runJobs]

/-- Zero successful outputs means exactly that every job's outcome has
status `"error"`. -/
theorem successOutputs_eq_nil (dout : String) (ps : List String)
    (proc : Nat → ProcResult) :
    successOutputs dout ps proc = [] ↔
      ∀ i < ps.length,
        (normalize_track (ps.getD i "") (outputPathFor dout (ps.getD i ""))
          (proc i)).status = "error" := by
  induction ps generalizing proc with
  | nil => simp [successOutputs]
  | cons p ps ih =>
    constructor
    · intro h i hi
      by_cases hs : (normalize_track p (outputPathFor dout p) (proc 0)).status = "error"
      · cases i with
        | zero => simpa using hs
        | succ i =>
          have hrest : successOutputs dout ps (fun j => proc (j + 1)) = [] := by
            simpa [successOutputs, normalize_file, hs] using h
          have := (ih (fun j => proc (j + 1))).mp hrest i (by simpa using hi)
          simpa using this
      · exact absurd h (by simp [successOutputs, normalize_file, hs])
    · intro h
      have hs : (normalize_track p (outputPathFor dout p) (proc 0)).status = "error" := by
        have := h 0 (by simp)
        simpa using this
      have hrest := (ih (fun j => proc (j + 1))).mpr
        (fun i hi => by simpa using h (i + 1) (by simpa using hi))
      simp [successOutputs, normalize_file, hs, hrest]

/-- A trace of write events contains no process spawn. -/
theorem hasSpawnEv_of_writes (evs : List Ev)
    (h : ∀ e ∈ evs, ∃ p c, e = Ev.write p c) : hasSpawnEv evs = false := by
  simp only [hasSpawnEv, List.any_eq_false]
  intro e he
  obtain ⟨p, c, rfl⟩ := h e he
  simp [isSpawn]

/- ### Claim theorems -/

/-- C2 counterexample: when the normalization subprocess exceeds its
300-second bound (`subprocess.TimeoutExpired`), the returned outcome has
status `"error"`, not `"timeout"` as the claim states (lines 88-89). -/
theorem C2_counterexample :
    normalize_track "/in/track.mp3" "/out/track_normalized.mp3" ProcResult.timedOut =
      ⟨"error", "Normalization timed out"⟩ ∧ ("error" : String) ≠ "timeout" :=
  ⟨rfl, by decide⟩

/-- C2 (amended): for every input, a timeout of the Normalize operation's
external-tool invocation yields an outcome with the generic status
`"error"` whose message is the fixed text "Normalization timed out"
(distinct from messages of other failures, which carry the tool's stderr
or the exception text). -/
theorem C2_timeout_status (input_path output_path : String) :
    normalize_track input_path output_path ProcResult.timedOut =
      ⟨"error", "Normalization timed out"⟩ := rfl

/-- C9: `/health` always answers with status `"healthy"`, and
`ffmpeg_available` is true exactly when the version-check subprocess
completed with exit code zero; an absent binary (exception) or a timeout
of the 5-second bound yields `false` without failing the endpoint. -/
theorem C9_health (pr : ProcResult) :
    (health_check pr).status = "healthy" ∧
      ((health_check pr).ffmpeg_available = true ↔
        ∃ out, pr = ProcResult.completed 0 out) := by
  cases pr with
  | completed rc out =>
    refine ⟨rfl, ?_⟩
    simp only [health_check, beq_iff_eq]
    constructor
    · intro h
      subst h
      exact ⟨out, rfl⟩
    · rintro ⟨o, ho⟩
      cases ho
      rfl
  | timedOut =>
    refine ⟨rfl, ?_⟩
    simp [health_check]
  | raised m =>
    refine ⟨rfl, ?_⟩
    simp [health_check]

/-- C6: the aggregation loop partitions the scheduler's ordered outcome
sequence into failures — exactly the outcomes whose status is not
`"success"`, each contributing a `"<filename>: <message>"` entry — and
successes — exactly the output paths of outcomes with status `"success"`.
(Timed-out jobs carry status `"error"` here, see `C2_timeout_status`, so
they land among the failures.) -/
theorem C6_aggregator_partitions (output_dir : String) (input_files : List String)
    (proc : Nat → ProcResult) :
    aggregate (runNormalizeJobs output_dir input_files proc) input_files =
      (((runNormalizeJobs output_dir input_files proc).zip input_files).filterMap
         fun x => if x.1.1.status = "success" then none
                  else some (basename x.2 ++ ": " ++ x.1.1.message),
       ((runNormalizeJobs output_dir input_files proc).zip input_files).filterMap
         fun x => if x.1.1.status = "success" then some x.1.2 else none) := by
  induction input_files generalizing proc with
  | nil => rfl
  | cons p ps ih =>
    have ihx : aggregate (mapWithOracle (normalize_file output_dir) ps
          fun i => proc (i + 1)) ps =
        (((mapWithOracle (normalize_file output_dir) ps fun i => proc (i + 1)).zip ps).filterMap
           fun x => if x.1.1.status = "success" then none
                    else some (basename x.2 ++ ": " ++ x.1.1.message),
         ((mapWithOracle (normalize_file output_dir) ps fun i => proc (i + 1)).zip ps).filterMap
           fun x => if x.1.1.status = "success" then some x.1.2 else none) :=
      ih (fun i => proc (i + 1))
    rcases normalize_track_status p (outputPathFor output_dir p) (proc 0) with hs | hs <;>
      simp [runNormalizeJobs, mapWithOracle, aggregate, normalize_file, hs, ihx]

/-- `analyze_track` always returns an outcome (every exception is caught)
whose status is one of the three defined values. -/
theorem analyze_track_status (p : String) (pr : ProcResult) :
    (analyze_track p pr).status = "success" ∨ (analyze_track p pr).status = "timeout" ∨
      (analyze_track p pr).status = "error" := by
  cases pr with
  | completed rc out =>
    cases h : scanLoop (splitlines out) none none with
    | ok v =>
      obtain ⟨l, t⟩ := v
      left
      simp [analyze_track, h]
    | error e =>
      right; right
      simp [analyze_track, h]
  | timedOut => right; left; rfl
  | raised m => right; right; rfl

/-- Concrete two-file batch used by witnesses. -/
def wUploads : List Upload := [⟨"a.mp3", "ca"⟩, ⟨"b.mp3", "cb"⟩]

/-- Oracle that times every job out. -/
def wTimeoutProc : Nat → ProcResult := fun _ => ProcResult.timedOut

/-- Oracle where only the first job succeeds. -/
def wMixedProc : Nat → ProcResult := fun i =>
  if i = 0 then ProcResult.completed 0 "" else ProcResult.timedOut

/-- C4: on every valid batch, both endpoints produce one outcome per input
file, in submission order: the result sequence has the input's length and
its `i`-th element is the worker applied to the `i`-th staged file and the
`i`-th subprocess outcome.  Completion order cannot influence this: the
scheduler (`executor.map`, embedded as the order-preserving
`mapWithOracle`) indexes results by submission position. -/
theorem C4_batch_order (din dout : String) (files : List Upload)
    (proc : Nat → ProcResult) (hne : files ≠ [])
    (hv : ∀ f ∈ files, endsWithMp3 f.filename = true) :
    (analyze_files din files proc).1 =
      Except.ok ⟨mapWithOracle analyze_track
        (files.map fun f => osPathJoin din f.filename) proc⟩ ∧
    (mapWithOracle analyze_track (files.map fun f => osPathJoin din f.filename)
        proc).length = files.length ∧
    (∀ i d, i < files.length →
      (mapWithOracle analyze_track (files.map fun f => osPathJoin din f.filename)
          proc).getD i d =
        analyze_track (osPathJoin din (files.getD i ⟨"", ""⟩).filename) (proc i)) ∧
    (runNormalizeJobs dout (files.map fun f => osPathJoin din f.filename)
        proc).length = files.length ∧
    (∀ i d, i < files.length →
      (runNormalizeJobs dout (files.map fun f => osPathJoin din f.filename)
          proc).getD i d =
        normalize_file dout (osPathJoin din (files.getD i ⟨"", ""⟩).filename) (proc i)) := by
  refine ⟨?_, ?_, ?_, ?_, ?_⟩
  · rw [analyze_files_valid din files proc hne hv]
  · rw [mapWithOracle_length]
    simp
  · intro i d hi
    have hlen : i < (files.map fun f => osPathJoin din f.filename).length := by simpa using hi
    rw [mapWithOracle_getD _ _ _ i d hlen, getD_map _ files i "" ⟨"", ""⟩ hi]
  · unfold runNormalizeJobs
    rw [mapWithOracle_length]
    simp
  · intro i d hi
    have hlen : i < (files.map fun f => osPathJoin din f.filename).length := by simpa using hi
    unfold runNormalizeJobs
    rw [mapWithOracle_getD _ _ _ i d hlen, getD_map _ files i "" ⟨"", ""⟩ hi]

/-- C4 witness: the theorem applied to a concrete two-file batch. -/
theorem C4_witness :
    wUploads ≠ [] ∧ (∀ f ∈ wUploads, endsWithMp3 f.filename = true) ∧
    ((analyze_files "/t" wUploads wTimeoutProc).1 =
      Except.ok ⟨mapWithOracle analyze_track
        (wUploads.map fun f => osPathJoin "/t" f.filename) wTimeoutProc⟩ ∧
    (mapWithOracle analyze_track (wUploads.map fun f => osPathJoin "/t" f.filename)
        wTimeoutProc).length = wUploads.length ∧
    (∀ i d, i < wUploads.length →
      (mapWithOracle analyze_track (wUploads.map fun f => osPathJoin "/t" f.filename)
          wTimeoutProc).getD i d =
        analyze_track (osPathJoin "/t" (wUploads.getD i ⟨"", ""⟩).filename) (wTimeoutProc i)) ∧
    (runNormalizeJobs "/o" (wUploads.map fun f => osPathJoin "/t" f.filename)
        wTimeoutProc).length = wUploads.length ∧
    (∀ i d, i < wUploads.length →
      (runNormalizeJobs "/o" (wUploads.map fun f => osPathJoin "/t" f.filename)
          wTimeoutProc).getD i d =
        normalize_file "/o" (osPathJoin "/t" (wUploads.getD i ⟨"", ""⟩).filename)
          (wTimeoutProc i))) :=
  ⟨by decide, by decide,
   C4_batch_order "/t" "/o" wUploads wTimeoutProc (by decide) (by decide)⟩

/-- C7: on a validly-named batch, every per-job failure is recovered
locally: `/analyze` answers HTTP 200 for every oracle — in particular when
every job fails — with one outcome per file, the `i`-th depending only on
job `i`'s own subprocess outcome, and `analyze_track` is total with status
`success`, `timeout` or `error` (the exception handlers of lines 56-71
convert every failure into a JobOutcome instead of aborting the batch). -/
theorem C7_per_job_recovery (din : String) (files : List Upload)
    (proc : Nat → ProcResult) (hne : files ≠ [])
    (hv : ∀ f ∈ files, endsWithMp3 f.filename = true) :
    (∃ results, (analyze_files din files proc).1 = Except.ok ⟨results⟩ ∧
      results.length = files.length ∧
      ∀ i d, i < files.length → results.getD i d =
        analyze_track (osPathJoin din (files.getD i ⟨"", ""⟩).filename) (proc i)) ∧
    (∀ p pr, (analyze_track p pr).status = "success" ∨
      (analyze_track p pr).status = "timeout" ∨
      (analyze_track p pr).status = "error") := by
  refine ⟨⟨mapWithOracle analyze_track (files.map fun f => osPathJoin din f.filename) proc,
    ?_, ?_, ?_⟩, fun p pr => analyze_track_status p pr⟩
  · rw [analyze_files_valid din files proc hne hv]
  · rw [mapWithOracle_length]
    simp
  · intro i d hi
    have hlen : i < (files.map fun f => osPathJoin din f.filename).length := by simpa using hi
    rw [mapWithOracle_getD _ _ _ i d hlen, getD_map _ files i "" ⟨"", ""⟩ hi]

/-- C7 witness: the theorem applied to a concrete batch whose every job
times out; the endpoint still answers 200 with per-file outcomes. -/
theorem C7_witness :
    wUploads ≠ [] ∧ (∀ f ∈ wUploads, endsWithMp3 f.filename = true) ∧
    ((∃ results, (analyze_files "/t" wUploads wTimeoutProc).1 = Except.ok ⟨results⟩ ∧
      results.length = wUploads.length ∧
      ∀ i d, i < wUploads.length → results.getD i d =
        analyze_track (osPathJoin "/t" (wUploads.getD i ⟨"", ""⟩).filename)
          (wTimeoutProc i)) ∧
    (∀ p pr, (analyze_track p pr).status = "success" ∨
      (analyze_track p pr).status = "timeout" ∨
      (analyze_track p pr).status = "error")) :=
  ⟨by decide, by decide, C7_per_job_recovery "/t" wUploads wTimeoutProc (by decide) (by decide)⟩

/-- If no line of the tool output contains `"Input Integrated"`, and every
line containing `"Input True Peak"` has a colon (so its extraction cannot
raise), the scan loop succeeds and leaves `lufs` untouched. -/
theorem scanLoop_noIntegrated : ∀ (lines : List String) (lufs tp : Option String),
    (∀ l ∈ lines, containsPat "Input Integrated".data l.data = false) →
    (∀ l ∈ lines, containsPat "Input True Peak".data l.data = true →
      ((splitOnChar ':' l).get? 1).isSome = true) →
    ∃ tpv, scanLoop lines lufs tp = Except.ok (lufs, tpv)
  | [], _, tp, _, _ => ⟨tp, rfl⟩
  | line :: rest, lufs, tp, h1, h2 => by
    have hl1 : containsPat "Input Integrated".data line.data = false :=
      h1 line (List.mem_cons_self line rest)
    have h1r : ∀ l ∈ rest, containsPat "Input Integrated".data l.data = false :=
      fun l hl => h1 l (List.mem_cons_of_mem line hl)
    have h2r : ∀ l ∈ rest, containsPat "Input True Peak".data l.data = true →
        ((splitOnChar ':' l).get? 1).isSome = true :=
      fun l hl => h2 l (List.mem_cons_of_mem line hl)
    by_cases htp : containsPat "Input True Peak".data line.data = true
    · have hsome := h2 line (List.mem_cons_self line rest) htp
      obtain ⟨s, hs⟩ := Option.isSome_iff_exists.mp hsome
      obtain ⟨tpv, htv⟩ := scanLoop_noIntegrated rest lufs
        (some (String.mk (replaceAll " dBTP".data [] (stripList s.data)))) h1r h2r
      rw [List.get?_eq_getElem?] at hs
      exact ⟨tpv, by simp [scanLoop, hl1, htp, extractMetric, hs, htv]⟩
    · obtain ⟨tpv, htv⟩ := scanLoop_noIntegrated rest lufs tp h1r h2r
      exact ⟨tpv, by simp [scanLoop, hl1, htp, htv]⟩

/-- If no line of the tool output contains `"Input True Peak"`, and every
line containing `"Input Integrated"` has a colon (so its extraction
cannot raise), the scan loop succeeds and leaves `tp` untouched. -/
theorem scanLoop_noTruePeak : ∀ (lines : List String) (lufs tp : Option String),
    (∀ l ∈ lines, containsPat "Input True Peak".data l.data = false) →
    (∀ l ∈ lines, containsPat "Input Integrated".data l.data = true →
      ((splitOnChar ':' l).get? 1).isSome = true) →
    ∃ lufsv, scanLoop lines lufs tp = Except.ok (lufsv, tp)
  | [], lufs, _, _, _ => ⟨lufs, rfl⟩
  | line :: rest, lufs, tp, h1, h2 => by
    have hl1 : containsPat "Input True Peak".data line.data = false :=
      h1 line (List.mem_cons_self line rest)
    have h1r : ∀ l ∈ rest, containsPat "Input True Peak".data l.data = false :=
      fun l hl => h1 l (List.mem_cons_of_mem line hl)
    have h2r : ∀ l ∈ rest, containsPat "Input Integrated".data l.data = true →
        ((splitOnChar ':' l).get? 1).isSome = true :=
      fun l hl => h2 l (List.mem_cons_of_mem line hl)
    by_cases hin : containsPat "Input Integrated".data line.data = true
    · have hsome := h2 line (List.mem_cons_self line rest) hin
      obtain ⟨s, hs⟩ := Option.isSome_iff_exists.mp hsome
      obtain ⟨lv, hlv⟩ := scanLoop_noTruePeak rest
        (some (String.mk (replaceAll " LUFS".data [] (stripList s.data)))) tp h1r h2r
      rw [List.get?_eq_getElem?] at hs
      exact ⟨lv, by simp [scanLoop, hl1, hin, extractMetric, hs, hlv]⟩
    · obtain ⟨lv, hlv⟩ := scanLoop_noTruePeak rest lufs tp h1r h2r
      exact ⟨lv, by simp [scanLoop, hl1, hin, hlv]⟩

/-- C5: both halves of the absent-metric-line contract of lines 43-54.
If the tool output lacks the `"Input Integrated"` line, the outcome
leaves `lufs` unset while the status is still `"success"` and no error is
recorded; and if it lacks the `"Input True Peak"` line, the outcome
likewise leaves `tp` unset with status `"success"` and no error.  In each
half a hypothesis on the OTHER label's present lines (they must contain a
colon) only rules out the separate IndexError path for a malformed
present line: the operation does not fail merely because a metric line is
absent. -/
theorem C5_missing_metric_line (file_path : String) (rc : Int) (out : String) :
    ((∀ l ∈ splitlines out, containsPat "Input Integrated".data l.data = false) →
     (∀ l ∈ splitlines out, containsPat "Input True Peak".data l.data = true →
       ((splitOnChar ':' l).get? 1).isSome = true) →
     (analyze_track file_path (ProcResult.completed rc out)).lufs = none ∧
     (analyze_track file_path (ProcResult.completed rc out)).status = "success" ∧
     (analyze_track file_path (ProcResult.completed rc out)).error = none) ∧
    ((∀ l ∈ splitlines out, containsPat "Input True Peak".data l.data = false) →
     (∀ l ∈ splitlines out, containsPat "Input Integrated".data l.data = true →
       ((splitOnChar ':' l).get? 1).isSome = true) →
     (analyze_track file_path (ProcResult.completed rc out)).tp = none ∧
     (analyze_track file_path (ProcResult.completed rc out)).status = "success" ∧
     (analyze_track file_path (ProcResult.completed rc out)).error = none) := by
  constructor
  · intro h1 h2
    obtain ⟨tpv, htv⟩ := scanLoop_noIntegrated (splitlines out) none none h1 h2
    simp [analyze_track, htv]
  · intro h1 h2
    obtain ⟨lv, hlv⟩ := scanLoop_noTruePeak (splitlines out) none none h1 h2
    simp [analyze_track, hlv]

/-- C5 witness: the theorem applied to two concrete outputs — one with a
True-Peak line but no Integrated line (a success with `lufs` unset), one
with an Integrated line but no True-Peak line (a success with `tp`
unset). -/
theorem C5_witness :
    ((∀ l ∈ splitlines "Input True Peak:   -1.0 dBTP\nok",
        containsPat "Input Integrated".data l.data = false) ∧
     (∀ l ∈ splitlines "Input True Peak:   -1.0 dBTP\nok",
        containsPat "Input True Peak".data l.data = true →
          ((splitOnChar ':' l).get? 1).isSome = true) ∧
     ((analyze_track "/t/a.mp3"
        (ProcResult.completed 0 "Input True Peak:   -1.0 dBTP\nok")).lufs = none ∧
      (analyze_track "/t/a.mp3"
        (ProcResult.completed 0 "Input True Peak:   -1.0 dBTP\nok")).status = "success" ∧
      (analyze_track "/t/a.mp3"
        (ProcResult.completed 0 "Input True Peak:   -1.0 dBTP\nok")).error = none)) ∧
    ((∀ l ∈ splitlines "Input Integrated:   -14.4 LUFS\nok",
        containsPat "Input True Peak".data l.data = false) ∧
     (∀ l ∈ splitlines "Input Integrated:   -14.4 LUFS\nok",
        containsPat "Input Integrated".data l.data = true →
          ((splitOnChar ':' l).get? 1).isSome = true) ∧
     ((analyze_track "/t/b.mp3"
        (ProcResult.completed 0 "Input Integrated:   -14.4 LUFS\nok")).tp = none ∧
      (analyze_track "/t/b.mp3"
        (ProcResult.completed 0 "Input Integrated:   -14.4 LUFS\nok")).status = "success" ∧
      (analyze_track "/t/b.mp3"
        (ProcResult.completed 0 "Input Integrated:   -14.4 LUFS\nok")).error = none)) :=
  ⟨⟨by decide, by decide,
    (C5_missing_metric_line "/t/a.mp3" 0 "Input True Peak:   -1.0 dBTP\nok").1
      (by decide) (by decide)⟩,
   ⟨by decide, by decide,
    (C5_missing_metric_line "/t/b.mp3" 0 "Input Integrated:   -14.4 LUFS\nok").2
      (by decide) (by decide)⟩⟩

/-- C1 counterexample: uploading `track.wav` to `/normalize` does NOT
fail with HTTP 400 — the validation `HTTPException(400, ...)` raised
inside the `try` of lines 135-191 is caught by `except Exception` and
re-raised as HTTP 500 (with the original exception's `str()` as detail),
so the claimed 400 status is wrong for this endpoint. -/
theorem C1_counterexample :
    (normalize_files "s" "/i" "/o" [⟨"track.wav", "x"⟩]
        (fun _ => ProcResult.timedOut)).1 =
      Except.error ⟨500, "400: File track.wav is not an MP3"⟩ ∧
    (500 : Nat) ≠ 400 :=
  ⟨rfl, by decide⟩

/-- C1 (amended): a batch containing a file whose name does not end in
`.mp3` (case-insensitive) makes `/analyze` fail with HTTP 400 naming the
first offending file, while `/normalize` fails with HTTP **500** whose
detail is the `str()` of that same 400 error (still naming the file);
in both cases no external process is invoked for the batch. -/
theorem C1_bad_extension (din dout sid : String) (files : List Upload)
    (proc : Nat → ProcResult) (f : Upload)
    (hf : files.find? (fun u => !endsWithMp3 u.filename) = some f) :
    (analyze_files din files proc).1 =
      Except.error ⟨400, "File " ++ f.filename ++ " is not an MP3"⟩ ∧
    hasSpawnEv (analyze_files din files proc).2 = false ∧
    (normalize_files sid din dout files proc).1 =
      Except.error ⟨500, strHTTPExc ⟨400, "File " ++ f.filename ++ " is not an MP3"⟩⟩ ∧
    hasSpawnEv (normalize_files sid din dout files proc).2 = false := by
  have hne : files ≠ [] := by
    intro h
    subst h
    simp [List.find?] at hf
  obtain ⟨evs, heq, hw⟩ := stageFiles_err din files f hf
  have hwf : evs.any isSpawn = false := hasSpawnEv_of_writes evs hw
  refine ⟨?_, ?_, ?_, ?_⟩
  · unfold analyze_files
    rw [if_neg hne, heq]
  · unfold analyze_files
    rw [if_neg hne, heq]
    simp [hasSpawnEv, isSpawn, hwf]
  · unfold normalize_files
    rw [if_neg hne, heq]
  · unfold normalize_files
    rw [if_neg hne, heq]
    simp [hasSpawnEv, isSpawn, hwf]

/-- C1 witness: a concrete batch whose second file is `track.wav`. -/
theorem C1_witness :
    [(⟨"a.mp3", "ca"⟩ : Upload), ⟨"track.wav", "cw"⟩].find?
        (fun u => !endsWithMp3 u.filename) = some ⟨"track.wav", "cw"⟩ ∧
    ((analyze_files "/t" [⟨"a.mp3", "ca"⟩, ⟨"track.wav", "cw"⟩] wTimeoutProc).1 =
      Except.error ⟨400, "File " ++ "track.wav" ++ " is not an MP3"⟩ ∧
    hasSpawnEv (analyze_files "/t" [⟨"a.mp3", "ca"⟩, ⟨"track.wav", "cw"⟩] wTimeoutProc).2 = false ∧
    (normalize_files "s" "/t" "/o" [⟨"a.mp3", "ca"⟩, ⟨"track.wav", "cw"⟩] wTimeoutProc).1 =
      Except.error ⟨500, strHTTPExc ⟨400, "File " ++ "track.wav" ++ " is not an MP3"⟩⟩ ∧
    hasSpawnEv (normalize_files "s" "/t" "/o"
        [⟨"a.mp3", "ca"⟩, ⟨"track.wav", "cw"⟩] wTimeoutProc).2 = false) :=
  ⟨by decide,
   C1_bad_extension "/t" "/o" "s" [⟨"a.mp3", "ca"⟩, ⟨"track.wav", "cw"⟩]
     wTimeoutProc ⟨"track.wav", "cw"⟩ (by decide)⟩

/-- When every job's outcome has status `"error"`, the failure summary
lists every file: one `"<basename>: <message>"` entry per job, in order. -/
theorem failureSummaries_all_error (dout : String) :
    ∀ (ps : List String) (proc : Nat → ProcResult),
    (∀ i < ps.length,
      (normalize_track (ps.getD i "") (outputPathFor dout (ps.getD i ""))
        (proc i)).status = "error") →
    failureSummaries dout ps proc =
      mapWithOracle (fun p pr => basename p ++ ": " ++
        (normalize_track p (outputPathFor dout p) pr).message) ps proc
  | [], _, _ => rfl
  | p :: ps, proc, h => by
    have h0 : (normalize_track p (outputPathFor dout p) (proc 0)).status = "error" := by
      simpa using h 0 (by simp)
    have hr := failureSummaries_all_error dout ps (fun i => proc (i + 1))
      (fun i hi => by simpa using h (i + 1) (by simpa using hi))
    simp [failureSummaries, mapWithOracle, normalize_file, h0, hr]

/-- C3: on a valid nonempty batch, zero successful outputs holds exactly
when every job's outcome has status `"error"`; in that case `/normalize`
fails with HTTP 500 whose detail joins one `"<basename>: <message>"`
entry per failed file — never an empty archive — and otherwise it returns
a zip `FileResponse` whose entries are exactly the successful output
files (the failed ones excluded), each stored under its base filename
only. -/
theorem C3_failed_or_exact_archive (sid din dout : String) (files : List Upload)
    (proc : Nat → ProcResult) (hne : files ≠ [])
    (hv : ∀ f ∈ files, endsWithMp3 f.filename = true) :
    (successOutputs dout (files.map fun f => osPathJoin din f.filename) proc = [] ↔
      ∀ i < files.length,
        (normalize_track ((files.map fun f => osPathJoin din f.filename).getD i "")
          (outputPathFor dout ((files.map fun f => osPathJoin din f.filename).getD i ""))
          (proc i)).status = "error") ∧
    (if successOutputs dout (files.map fun f => osPathJoin din f.filename) proc = [] then
      (normalize_files sid din dout files proc).1 =
        Except.error ⟨500, strHTTPExc ⟨500, "All files failed to normalize: " ++
          joinSemicolon (failureSummaries dout
            (files.map fun f => osPathJoin din f.filename) proc)⟩⟩ ∧
      failureSummaries dout (files.map fun f => osPathJoin din f.filename) proc =
        mapWithOracle (fun p pr => basename p ++ ": " ++
            (normalize_track p (outputPathFor dout p) pr).message)
          (files.map fun f => osPathJoin din f.filename) proc
    else
      ∃ r, (normalize_files sid din dout files proc).1 = Except.ok r ∧
        r.entries = (successOutputs dout
            (files.map fun f => osPathJoin din f.filename) proc).map
          (fun p => (p, basename p)) ∧
        r.media_type = "application/zip" ∧
        r.download_name = "normalized_audio_" ++
          toString (successOutputs dout
            (files.map fun f => osPathJoin din f.filename) proc).length ++
          "_files.zip") := by
  have hiff : successOutputs dout (files.map fun f => osPathJoin din f.filename) proc = [] ↔
      ∀ i < files.length,
        (normalize_track ((files.map fun f => osPathJoin din f.filename).getD i "")
          (outputPathFor dout ((files.map fun f => osPathJoin din f.filename).getD i ""))
          (proc i)).status = "error" := by
    rw [successOutputs_eq_nil]
    simp [List.length_map]
  refine ⟨hiff, ?_⟩
  have hchar := normalize_files_valid sid din dout files proc hne hv
  by_cases hz : successOutputs dout (files.map fun f => osPathJoin din f.filename) proc = []
  · rw [if_pos hz]
    refine ⟨?_, ?_⟩
    · rw [hchar]
      simp [hz]
    · apply failureSummaries_all_error
      rw [← successOutputs_eq_nil]
      exact hz
  · rw [if_neg hz]
    rw [hchar]
    simp only [hz, if_neg, ite_false]
    exact ⟨_, rfl, rfl, rfl, rfl⟩

/-- C3 witness: the theorem applied to a concrete two-file batch where
only the first job succeeds; the archive holds exactly that output. -/
theorem C3_witness :
    wUploads ≠ [] ∧ (∀ f ∈ wUploads, endsWithMp3 f.filename = true) ∧
    ((successOutputs "/o" (wUploads.map fun f => osPathJoin "/i" f.filename) wMixedProc = [] ↔
      ∀ i < wUploads.length,
        (normalize_track ((wUploads.map fun f => osPathJoin "/i" f.filename).getD i "")
          (outputPathFor "/o" ((wUploads.map fun f => osPathJoin "/i" f.filename).getD i ""))
          (wMixedProc i)).status = "error") ∧
    (if successOutputs "/o" (wUploads.map fun f => osPathJoin "/i" f.filename) wMixedProc = [] then
      (normalize_files "s" "/i" "/o" wUploads wMixedProc).1 =
        Except.error ⟨500, strHTTPExc ⟨500, "All files failed to normalize: " ++
          joinSemicolon (failureSummaries "/o"
            (wUploads.map fun f => osPathJoin "/i" f.filename) wMixedProc)⟩⟩ ∧
      failureSummaries "/o" (wUploads.map fun f => osPathJoin "/i" f.filename) wMixedProc =
        mapWithOracle (fun p pr => basename p ++ ": " ++
            (normalize_track p (outputPathFor "/o" p) pr).message)
          (wUploads.map fun f => osPathJoin "/i" f.filename) wMixedProc
    else
      ∃ r, (normalize_files "s" "/i" "/o" wUploads wMixedProc).1 = Except.ok r ∧
        r.entries = (successOutputs "/o"
            (wUploads.map fun f => osPathJoin "/i" f.filename) wMixedProc).map
          (fun p => (p, basename p)) ∧
        r.media_type = "application/zip" ∧
        r.download_name = "normalized_audio_" ++
          toString (successOutputs "/o"
            (wUploads.map fun f => osPathJoin "/i" f.filename) wMixedProc).length ++
          "_files.zip")) :=
  ⟨by decide, by decide,
   C3_failed_or_exact_archive "s" "/i" "/o" wUploads wMixedProc (by decide) (by decide)⟩

/-- Every event the staging loop emits is a file write. -/
theorem stageFiles_writes (dir : String) :
    ∀ (files : List Upload), ∀ e ∈ (stageFiles dir files).2, ∃ p c, e = Ev.write p c
  | [] => by simp [stageFiles]
  | f :: fs => by
    intro e he
    by_cases hf : endsWithMp3 f.filename
    · cases hrec : stageFiles dir fs with
      | mk res evs =>
        have hW : ∀ e ∈ evs, ∃ p c, e = Ev.write p c := by
          intro e2 he2
          exact stageFiles_writes dir fs e2 (by rw [hrec]; exact he2)
        cases res with
        | ok ps =>
          rw [show stageFiles dir (f :: fs) =
              (Except.ok (osPathJoin dir f.filename :: ps),
               Ev.write (osPathJoin dir f.filename) f.content :: evs) by
            simp [stageFiles, hf, hrec]] at he
          rcases List.mem_cons.mp he with h | h
          · exact ⟨_, _, h⟩
          · exact hW e h
        | error e2 =>
          rw [show stageFiles dir (f :: fs) =
              (Except.error e2,
               Ev.write (osPathJoin dir f.filename) f.content :: evs) by
            simp [stageFiles, hf, hrec]] at he
          rcases List.mem_cons.mp he with h | h
          · exact ⟨_, _, h⟩
          · exact hW e h
    · rw [show stageFiles dir (f :: fs) =
          (Except.error ⟨400, "File " ++ f.filename ++ " is not an MP3"⟩, []) by
        simp [stageFiles, hf]] at he
      simp at he

/-- A list of write events contains no `mkdir` and no `rmtree`. -/
theorem writes_no_dir_events (evs : List Ev)
    (h : ∀ e ∈ evs, ∃ p c, e = Ev.write p c) (d : String) :
    Ev.mkdir d ∉ evs ∧ Ev.rmtree d ∉ evs := by
  constructor
  · intro hm
    obtain ⟨p, c, he⟩ := h _ hm
    exact Ev.noConfusion he
  · intro hm
    obtain ⟨p, c, he⟩ := h _ hm
    exact Ev.noConfusion he

/-- C8: for every `/normalize` request, every directory the handler
created is cleaned up: on every error path the trace itself contains the
recursive removal of that directory (the `except` block of lines 187-191
runs it before re-raising), and on the success path the removal is not in
the trace but is registered as the response's deferred `background`
action (lines 183-184), which the framework runs after the response body
is sent. -/
theorem C8_workspace_cleanup (sid din dout : String) (files : List Upload)
    (proc : Nat → ProcResult) (d : String)
    (hd : Ev.mkdir d ∈ (normalize_files sid din dout files proc).2) :
    (∀ e, (normalize_files sid din dout files proc).1 = Except.error e →
      Ev.rmtree d ∈ (normalize_files sid din dout files proc).2) ∧
    (∀ r, (normalize_files sid din dout files proc).1 = Except.ok r →
      d ∈ r.background ∧ Ev.rmtree d ∉ (normalize_files sid din dout files proc).2) := by
  by_cases hne : files = []
  · rw [show normalize_files sid din dout files proc =
        (Except.error ⟨400, "No files uploaded"⟩, []) by
      simp [normalize_files, hne]] at hd
    simp at hd
  · cases hst : stageFiles din files with
    | mk res evs =>
      have hW : ∀ e ∈ evs, ∃ p c, e = Ev.write p c := by
        intro e2 he2
        exact stageFiles_writes din files e2 (by rw [hst]; exact he2)
      have hnoMk : Ev.mkdir d ∉ evs := (writes_no_dir_events evs hW d).1
      have hnoRm : Ev.rmtree d ∉ evs := (writes_no_dir_events evs hW d).2
      cases res with
      | error e0 =>
        have hn : normalize_files sid din dout files proc =
            (Except.error ⟨500, strHTTPExc e0⟩,
             [Ev.mkdir din, Ev.mkdir dout] ++ evs ++ [Ev.rmtree din, Ev.rmtree dout]) := by
          unfold normalize_files
          rw [if_neg hne, hst]
        rw [hn] at hd ⊢
        have hdd : d = din ∨ d = dout := by
          simp [hnoMk] at hd
          exact hd
        refine ⟨fun e he => ?_, fun r hr => by simp at hr⟩
        rcases hdd with rfl | rfl <;> simp
      | ok input_files =>
        by_cases hz : (aggregate (runNormalizeJobs dout input_files proc) input_files).2 = []
        · have hn : normalize_files sid din dout files proc =
              (Except.error ⟨500, strHTTPExc ⟨500, "All files failed to normalize: " ++
                 joinSemicolon (aggregate (runNormalizeJobs dout input_files proc)
                   input_files).1⟩⟩,
               [Ev.mkdir din, Ev.mkdir dout] ++ evs ++
                 (input_files.map fun p =>
                   Ev.spawn (normalizeCmd p (outputPathFor dout p)) NORMALIZE_TIMEOUT) ++
                 [Ev.rmtree din, Ev.rmtree dout]) := by
            unfold normalize_files
            rw [if_neg hne, hst]
            simp [hz]
          rw [hn] at hd ⊢
          have hdd : d = din ∨ d = dout := by
            simp [hnoMk] at hd
            exact hd
          refine ⟨fun e he => ?_, fun r hr => by simp at hr⟩
          rcases hdd with rfl | rfl <;> simp
        · have hn : normalize_files sid din dout files proc =
              (Except.ok
                { path := osPathJoin dout ("normalized_audio_" ++ sid ++ ".zip")
                  media_type := "application/zip"
                  download_name := "normalized_audio_" ++
                    toString (aggregate (runNormalizeJobs dout input_files proc)
                      input_files).2.length ++ "_files.zip"
                  entries := (aggregate (runNormalizeJobs dout input_files proc)
                    input_files).2.map fun p => (p, basename p)
                  background := [din, dout] },
               [Ev.mkdir din, Ev.mkdir dout] ++ evs ++
                 (input_files.map fun p =>
                   Ev.spawn (normalizeCmd p (outputPathFor dout p)) NORMALIZE_TIMEOUT)) := by
            unfold normalize_files
            rw [if_neg hne, hst]
            simp [hz]
          rw [hn] at hd ⊢
          have hdd : d = din ∨ d = dout := by
            simp [hnoMk] at hd
            exact hd
          refine ⟨fun e he => by simp at he, fun r hr => ?_⟩
          cases hr
          refine ⟨by rcases hdd with rfl | rfl <;> simp, ?_⟩
          intro hmem
          simp [hnoRm] at hmem

/-- C8 witness: a concrete successful request; the input directory was
created, so it appears in the deferred background cleanup and no eager
removal is in the trace. -/
theorem C8_witness :
    Ev.mkdir "/i" ∈ (normalize_files "s" "/i" "/o" wUploads wMixedProc).2 ∧
    ((∀ e, (normalize_files "s" "/i" "/o" wUploads wMixedProc).1 = Except.error e →
      Ev.rmtree "/i" ∈ (normalize_files "s" "/i" "/o" wUploads wMixedProc).2) ∧
    (∀ r, (normalize_files "s" "/i" "/o" wUploads wMixedProc).1 = Except.ok r →
      "/i" ∈ r.background ∧
        Ev.rmtree "/i" ∉ (normalize_files "s" "/i" "/o" wUploads wMixedProc).2)) :=
  ⟨by decide, C8_workspace_cleanup "s" "/i" "/o" wUploads wMixedProc "/i" (by decide)⟩

/-- C10 counterexample: the filename `a/../b.mp3` contains both a path
separator and a parent-directory component, passes the extension check
and is staged at the verbatim join — yet that path resolves to
`/ws/input/b.mp3`, still INSIDE the input directory, contradicting the
claim that such a filename yields a staged path outside it. -/
theorem C10_counterexample :
    endsWithMp3 "a/../b.mp3" = true ∧
    containsPat "/".data "a/../b.mp3".data = true ∧
    containsPat "..".data "a/../b.mp3".data = true ∧
    (stageFiles "/ws/input" [⟨"a/../b.mp3", "c"⟩]).1 =
      Except.ok [osPathJoin "/ws/input" "a/../b.mp3"] ∧
    osPathJoin "/ws/input" "a/../b.mp3" = "/ws/input/a/../b.mp3" ∧
    (resolvePath "/ws/input").isPrefixOf
      (resolvePath (osPathJoin "/ws/input" "a/../b.mp3")) = true :=
  ⟨by decide, by decide, by decide, rfl, by decide, by decide⟩

/-- C10 (amended): a validly-named upload is staged at exactly the
verbatim join of the input directory and the uploaded filename — no
sanitization or uniquification — so two batch entries with equal
filenames are staged at the same path with the later write overwriting
the earlier, and a filename with enough parent-directory components CAN
escape the input directory (e.g. `../x.mp3` resolves outside it),
although not every filename with separators or `..` does. -/
theorem C10_staging_verbatim :
    (∀ din (files : List Upload), (∀ f ∈ files, endsWithMp3 f.filename = true) →
      (stageFiles din files).1 =
        Except.ok (files.map fun f => osPathJoin din f.filename)) ∧
    (∀ din n c1 c2, endsWithMp3 n = true →
      finalContent (stageFiles din [⟨n, c1⟩, ⟨n, c2⟩]).2 (osPathJoin din n) = some c2) ∧
    (resolvePath "/ws/input").isPrefixOf
      (resolvePath (osPathJoin "/ws/input" "../x.mp3")) = false := by
  refine ⟨?_, ?_, by decide⟩
  · intro din files hv
    rw [stageFiles_ok din files hv]
  · intro din n c1 c2 hn
    have hv : ∀ f ∈ [(⟨n, c1⟩ : Upload), ⟨n, c2⟩], endsWithMp3 f.filename = true := by
      intro f hf
      rcases List.mem_cons.mp hf with rfl | hf
      · exact hn
      · rcases List.mem_cons.mp hf with rfl | hf
        · exact hn
        · simp at hf
    rw [stageFiles_ok din [⟨n, c1⟩, ⟨n, c2⟩] hv]
    simp [finalContent]

/-- C10 witness: the amended theorem applied to concrete uploads,
including a duplicate pair whose later content wins. -/
theorem C10_witness :
    (∀ f ∈ [(⟨"a.mp3", "c1"⟩ : Upload)], endsWithMp3 f.filename = true) ∧
    (stageFiles "/d" [(⟨"a.mp3", "c1"⟩ : Upload)]).1 =
      Except.ok ([(⟨"a.mp3", "c1"⟩ : Upload)].map fun f => osPathJoin "/d" f.filename) ∧
    endsWithMp3 "dup.mp3" = true ∧
    finalContent (stageFiles "/d" [⟨"dup.mp3", "c1"⟩, ⟨"dup.mp3", "c2"⟩]).2
      (osPathJoin "/d" "dup.mp3") = some "c2" :=
  ⟨by decide,
   C10_staging_verbatim.1 "/d" [⟨"a.mp3", "c1"⟩] (by decide),
   by decide,
   C10_staging_verbatim.2.1 "/d" "dup.mp3" "c1" "c2" (by decide)⟩
